import Mathlib

/-!
Shallow embedding of `src/main.py` (a gaming-news RSS → Telegram bot) and
proofs about its deduplication ledger and fetch-filter-deliver pipeline.

Modelling conventions:
* A Python string is a Lean `String`; slicing `text[:n]` acts on the code-point
  sequence, embedded as `pyTruncate`.
* An entry identity is `getattr(entry, "link", None)`, i.e. `Option String`
  (`none` models Python `None` for a link-less entry).
* A Python `set` of identities is a list with membership semantics; `dict`s are
  association lists where lookup takes the first (most recent) binding.
* External collaborators are parameters: `fetch` (the HTTP GET + feedparser
  step, which either yields a list of raw entries or fails), `dparse`
  (`dateutil.parser.parse`, failing with an exception modelled as `none`),
  `post` (the Telegram HTTP POST outcome), `now` (the current instant).
* `json.dump` / `json.load` are an external serialization; the code-level
  transformations around them (`{str(k): list(v)}` on save and
  `{int(k): set(v)}` on load) are embedded over decimal-string keys.
-/

namespace GameNews

/-- Entry identity: the entry's link, `none` when the raw entry has no link
(Python `getattr(entry, "link", None)`). -/
abbrev Ident := Option String

/-- A Python aware `datetime`, reduced to what the program observes: the
absolute instant and the attached display-timezone offset (in hours).
`astimezone` changes only the offset, never the instant. -/
structure PyDateTime where
  instant : Int
  tzHours : Int
deriving DecidableEq, Repr

/-- `VN_TZ = timezone(timedelta(hours=7))`. -/
def VN_TZ : Int := 7

/-- `dt.astimezone(tz)`: same instant, displayed in `tz`. -/
def astimezone (tz : Int) (d : PyDateTime) : PyDateTime := ⟨d.instant, tz⟩

/-- A raw feedparser entry, reduced to the attributes `main.py` reads.
A structured time (`published_parsed` / `updated_parsed`) is kept as the UTC
instant it denotes; `none` models the attribute being absent or falsy (the code
guards with `hasattr(...) and entry....`). The free-text fields model
`hasattr` only. -/
structure RawEntry where
  published_parsed : Option Int
  updated_parsed : Option Int
  published : Option String
  updated : Option String
  link : Option String
  title : Option String
deriving DecidableEq, Repr

/-- `get_entry_datetime(entry)` from `main.py`.
`dparse` stands for `dateutil.parser.parse`; a Python parse exception is
`none`, and it is caught by the `except` block, leaving `pub_dt = None`, so the
function returns `datetime.now(VN_TZ)` (instant `now`, offset `VN_TZ`).
A structured time is turned into `datetime(*t[:6], tzinfo=timezone.utc)`
(offset 0); a parsed free-text time is `.astimezone(timezone.utc)`.
The chosen value is finally `.astimezone(VN_TZ)`. -/
def get_entry_datetime (dparse : String → Option PyDateTime) (now : Int)
    (e : RawEntry) : PyDateTime :=
  let pub_dt : Option PyDateTime :=
    match e.published_parsed with
    | some t => some ⟨t, 0⟩
    | none =>
      match e.updated_parsed with
      | some t => some ⟨t, 0⟩
      | none =>
        match e.published with
        | some s => (dparse s).map (astimezone 0)
        | none =>
          match e.updated with
          | some s => (dparse s).map (astimezone 0)
          | none => none
  match pub_dt with
  | some d => astimezone VN_TZ d
  | none => ⟨now, VN_TZ⟩

/-- Python slicing `text[:n]` on the code-point sequence. -/
def pyTruncate (n : Nat) (s : String) : String := ⟨s.data.take n⟩

/-- One payload handed to the external Telegram `sendMessage` endpoint. -/
structure TgPost where
  chat_id : Int
  text : String
deriving DecidableEq, Repr

/-- `send_telegram_message(chat_id, text)`: builds the single request payload
with `"text": text[:4000]` and posts it; `post` is the transport outcome
(`requests.post` + `raise_for_status`), any exception yielding `False`.
Returns the list of payloads handed to the platform (always exactly one; the
message is never split) together with the reported success. -/
def send_telegram_message (post : Int → String → Bool) (chat_id : Int)
    (text : String) : List TgPost × Bool :=
  let payload : TgPost := ⟨chat_id, pyTruncate 4000 text⟩
  ([payload], post chat_id payload.text)

/-- `fetch_rss(url)`: `fetch` models `requests.get` + `feedparser.parse`
yielding `feed.entries or []`; any transport error, non-success status or
parse exception is `Except.error` and is caught, returning `[]`. -/
def fetch_rss (fetch : String → Except Unit (List RawEntry)) (url : String) :
    List RawEntry :=
  match fetch url with
  | .ok es => es
  | .error _ => []

/-- A Python set of identities (membership semantics). -/
abbrev IdentSet := List Ident

/-- The in-memory `sent_links` dict: chat id → set of identities.
Association list; lookup takes the first binding. -/
abbrev SeenSet := List (Int × IdentSet)

/-- `sent_links[chat_id]`, with the `if chat_id not in sent_links:
sent_links[chat_id] = set()` default. -/
def seenOf (S : SeenSet) (r : Int) : IdentSet := (S.lookup r).getD []

/-- `sent_links[chat_id] = v` (dict update, modelled by shadowing). -/
def setSeen (S : SeenSet) (r : Int) (v : IdentSet) : SeenSet := (r, v) :: S

/-- One collected article (`{"title": ..., "link": ..., "pub_dt": ...}`). -/
structure Article where
  title : String
  link : Ident
  pub_dt : PyDateTime
deriving DecidableEq, Repr

/-- Python `str(x)` on an identity as interpolated by the f-string:
`None` prints as `"None"`. -/
def idStr : Ident → String
  | none => "None"
  | some s => s

/-- The f-string
`f"📰 **{source}**\n\n🔹 {article['title']}\n\n🔗 {article['link']}"`. -/
def format_message (source : String) (a : Article) : String :=
  "📰 **" ++ source ++ "**\n\n🔹 " ++ a.title ++ "\n\n🔗 " ++ idStr a.link

/-- The inner `for entry in entries:` loop of `send_news_to_chat`: normalize,
read `link` / `title`, keep the entry iff its link is not in the chat's seen
set, and add the link to the seen set at filter time.
Returns (collected, seen set, total counter). -/
def collectEntries (dparse : String → Option PyDateTime) (now : Int) :
    List RawEntry → List Article → IdentSet → Nat →
    List Article × IdentSet × Nat
  | [], coll, seen, tot => (coll, seen, tot)
  | e :: es, coll, seen, tot =>
    let pub_dt := get_entry_datetime dparse now e
    let link : Ident := e.link
    let title := e.title.getD "No title"
    if link ∈ seen then
      collectEntries dparse now es coll seen tot
    else
      collectEntries dparse now es (coll ++ [⟨title, link, pub_dt⟩])
        (link :: seen) (tot + 1)

/-- The hard-coded source list of `send_news_to_chat`. -/
def sources : List (String × String) :=
  [("🎮 GameK", "http://gamek.vn/home.rss"),
   ("🎯 IGN", "https://feeds.feedburner.com/ign/news"),
   ("📱 Pocket Gamer", "https://www.pocketgamer.com/news/index.rss"),
   ("🎲 Gematsu", "https://www.gematsu.com/feed")]

/-- The `for name, url in sources:` loop: fetch each source (errors already
collapsed to `[]` by `fetch_rss`), run the entry loop threading the chat's
seen set, and record `collected_news[name] = collected` when non-empty.
Returns (collected_news, final seen set, total_new_articles). -/
def collectSources (fetch : String → Except Unit (List RawEntry))
    (dparse : String → Option PyDateTime) (now : Int) :
    List (String × String) → IdentSet →
    List (String × List Article) × IdentSet × Nat
  | [], seen => ([], seen, 0)
  | (name, url) :: rest, seen =>
    let entries := fetch_rss fetch url
    let r := collectEntries dparse now entries [] seen 0
    let rec_ := collectSources fetch dparse now rest r.2.1
    ((if r.1 = [] then [] else [(name, r.1)]) ++ rec_.1, rec_.2.1,
      r.2.2 + rec_.2.2)

/-- The articles of a `collected_news` dict, flattened in delivery order
(the nested `for source, articles in collected_news.items(): for article in
articles:` loop). -/
def newsArticles (news : List (String × List Article)) : List Article :=
  (news.map Prod.snd).flatten

/-- Observable outcome of one `send_news_to_chat(chat_id)` call. -/
structure RunResult where
  collected_news : List (String × List Article)
  posts : List TgPost
  ledger : SeenSet
  saved : Option SeenSet
  total : Nat
  fetches : List String
deriving Repr

/-- The entries kept for delivery, flattened in delivery order. -/
def RunResult.delivered (r : RunResult) : List Article :=
  newsArticles r.collected_news

/-- The identities of the delivered entries. -/
def RunResult.deliveredIds (r : RunResult) : List Ident :=
  r.delivered.map Article.link

/-- `send_news_to_chat(chat_id)` from `main.py`. `ledger` is the `sent_links`
state loaded by the leading `load_sent_links()` call. The seen set defaults to
empty for an unknown chat, every source is fetched, filtering threads the seen
set, then — only when something was collected — every article is formatted and
sent (the boolean outcome of each send is discarded) and `save_sent_links()`
persists the updated dict; `saved = some L` records a persist of `L`. -/
def send_news_to_chat (fetch : String → Except Unit (List RawEntry))
    (dparse : String → Option PyDateTime) (now : Int)
    (post : Int → String → Bool) (ledger : SeenSet) (chat_id : Int) :
    RunResult :=
  let seen0 := seenOf ledger chat_id
  let r := collectSources fetch dparse now sources seen0
  let newLedger := setSeen ledger chat_id r.2.1
  if r.1 = [] then
    ⟨r.1, [], newLedger, none, r.2.2, sources.map Prod.snd⟩
  else
    let posts := (r.1.map (fun p =>
      p.2.map (fun a =>
        (send_telegram_message post chat_id
          (format_message p.1 a)).1))).flatten.flatten
    ⟨r.1, posts, newLedger, some newLedger, r.2.2, sources.map Prod.snd⟩

/-- Observable outcome of one `__main__` run. -/
structure MainResult where
  fetches : List String
  posts : List TgPost
  saveCount : Nat
  warned : Bool
  file : SeenSet
deriving Repr

/-- The `__main__` block: load the ledger file and the active chats; when the
chat registry is empty, log a warning and do nothing; otherwise run
`send_news_to_chat` per chat. Each per-chat call re-loads `sent_links` from
the file, so the state threaded between chats is the durable file, updated
only when that chat's run saved. -/
def main_run (fetch : String → Except Unit (List RawEntry))
    (dparse : String → Option PyDateTime) (now : Int)
    (post : Int → String → Bool) (file : SeenSet)
    (active_chats : List Int) : MainResult :=
  if active_chats = [] then
    ⟨[], [], 0, true, file⟩
  else
    active_chats.foldl
      (fun acc chat =>
        let r := send_news_to_chat fetch dparse now post acc.file chat
        ⟨acc.fetches ++ r.fetches, acc.posts ++ r.posts,
          acc.saveCount + (if r.saved.isSome then 1 else 0), acc.warned,
          r.saved.getD acc.file⟩)
      ⟨[], [], 0, false, file⟩

/-! ### The persisted ledger format

`save_sent_links` hands `{str(k): list(v) for k, v in sent_links.items()}` to
`json.dump`; `load_sent_links` rebuilds `{int(k): set(v) for k, v in
data.items()}` from `json.load`. The JSON encode/decode pair is the external
library, assumed inverse on the keyed structure; the code-level key
transformations `str : int → str` (decimal, `-` sign for negatives) and
`int : str → int` (raising on a malformed key, modelled as `none`) are
embedded below. `list(v)` / `set(v)` are the identity on the set model. -/

/-- The numeric value of a decimal digit character, `none` otherwise
(the digit branch of Python `int`). -/
def charVal (c : Char) : Option Nat :=
  if c.isDigit then some (c.toNat - 48) else none

/-- The characters of Python `str(n)` for a natural `n`: the base-10 digits,
most significant first (`str(0) = "0"`). -/
def strOfNatL (n : Nat) : List Char :=
  if n = 0 then ['0'] else ((Nat.digits 10 n).map Nat.digitChar).reverse

/-- Python `int` on a sign-less character sequence: every character must be a
decimal digit and there must be at least one; the value is the base-10
reading. -/
def natOfStrL (l : List Char) : Option Nat :=
  if l = [] then none
  else (l.mapM charVal).map (fun ds => Nat.ofDigits 10 ds.reverse)

/-- Python `str(k)` for an int `k`: a leading `-` for negatives, then the
decimal digits of the absolute value. -/
def strKey (k : Int) : List Char :=
  if k < 0 then '-' :: strOfNatL k.natAbs else strOfNatL k.natAbs

/-- Python `int(s)` on the forms `str` produces: an optional leading `-`,
then a non-empty digit sequence; anything else raises (`none`). -/
def intKey (l : List Char) : Option Int :=
  match l with
  | [] => none
  | c :: rest =>
    if c = '-' then Option.map (fun n : Nat => -(n : Int)) (natOfStrL rest)
    else Option.map (fun n : Nat => (n : Int)) (natOfStrL l)

/-- The dict `save_sent_links` serializes:
`{str(k): list(v) for k, v in sent_links.items()}`. -/
def save_sent_links_data (S : SeenSet) : List (List Char × IdentSet) :=
  S.map (fun p => (strKey p.1, p.2))

/-- The dict rebuilt by `load_sent_links`:
`{int(k): set(v) for k, v in data.items()}`; a key `int(k)` cannot parse
raises inside the `try`, failing the whole load (`none`). -/
def load_sent_links_data (d : List (List Char × IdentSet)) : Option SeenSet :=
  d.mapM (fun p => (intKey p.1).map (fun k => (k, p.2)))

/-! ### The durable write performed by `save_sent_links`

`save_sent_links` runs `with open(JSON_SENT_FILE, "w", ...) as f:
json.dump(data, f, ...)`. Opening with mode `"w"` truncates the file in
place; `json.dump` then appends the serialized text incrementally. The
sequence of durable file contents observable while the persist runs is
therefore the old content, then the empty file, then every prefix of the new
content. -/

/-- The successive durable contents of `sent_links.json` during one
`save_sent_links` call that replaces content `old` with content `new`. -/
def save_sent_links_states (old new : String) : List String :=
  old :: (List.range (new.length + 1)).map (fun n => pyTruncate n new)

/-- Atomicity from a reader's perspective: every observable durable state is
the old content or the new content. -/
def atomicStates (states : List String) (old new : String) : Prop :=
  ∀ s ∈ states, s = old ∨ s = new

instance (states : List String) (old new : String) :
    Decidable (atomicStates states old new) := by
  unfold atomicStates; infer_instance

/-! ### Round-trip facts about the decimal keys -/

lemma charVal_digitChar (d : Nat) (hd : d < 10) :
    charVal (Nat.digitChar d) = some d := by
  interval_cases d <;> rfl

lemma strOfNatL_ne_nil (n : Nat) : strOfNatL n ≠ [] := by
  unfold strOfNatL
  split
  · simp
  · simpa [Nat.digits_ne_nil_iff_ne_zero] using (by assumption : ¬ n = 0)

lemma strOfNatL_isDigit (n : Nat) : ∀ c ∈ strOfNatL n, c.isDigit := by
  intro c hc
  unfold strOfNatL at hc
  split at hc
  · simp at hc
    subst hc
    decide
  · rw [List.mem_reverse, List.mem_map] at hc
    obtain ⟨d, hd, rfl⟩ := hc
    have hlt : d < 10 := Nat.digits_lt_base (by norm_num) hd
    interval_cases d <;> decide

lemma mapM_charVal_digitChar (l : List Nat) (h : ∀ d ∈ l, d < 10) :
    (l.map Nat.digitChar).mapM charVal = some l := by
  induction l with
  | nil => rfl
  | cons d t ih =>
    have hd : d < 10 := h d (List.mem_cons_self d t)
    have ht := ih (fun x hx => h x (List.mem_cons_of_mem d hx))
    rw [List.map_cons, List.mapM_cons, charVal_digitChar d hd, ht]
    rfl

lemma natOfStrL_strOfNatL (n : Nat) : natOfStrL (strOfNatL n) = some n := by
  by_cases h : n = 0
  · subst h
    decide
  · unfold strOfNatL natOfStrL
    rw [if_neg h]
    have hne : ((Nat.digits 10 n).map Nat.digitChar).reverse ≠ [] := by
      simpa [Nat.digits_ne_nil_iff_ne_zero] using h
    rw [if_neg hne, ← List.map_reverse]
    rw [mapM_charVal_digitChar _
      (fun d hd => Nat.digits_lt_base (by norm_num) (List.mem_reverse.mp hd))]
    simp [Nat.ofDigits_digits]

lemma intKey_strKey (k : Int) : intKey (strKey k) = some k := by
  unfold strKey
  by_cases hk : k < 0
  · rw [if_pos hk]
    simp [intKey, natOfStrL_strOfNatL]
    rw [abs_of_neg hk]
    exact neg_neg k
  · rw [if_neg hk]
    obtain ⟨c, t, hct⟩ : ∃ c t, strOfNatL k.natAbs = c :: t := by
      cases hcase : strOfNatL k.natAbs with
      | nil => exact absurd hcase (strOfNatL_ne_nil _)
      | cons c t => exact ⟨c, t, rfl⟩
    have hcd : c.isDigit :=
      strOfNatL_isDigit k.natAbs c (hct ▸ List.mem_cons_self c t)
    have hcne : ¬ c = '-' := by
      intro h
      subst h
      exact absurd hcd (by decide)
    rw [hct]
    simp only [intKey, if_neg hcne, ← hct, natOfStrL_strOfNatL]
    simp
    omega

/-! ### Invariants of the filtering loops -/

lemma collectEntries_seen_mono (d : String → Option PyDateTime) (n : Int) :
    ∀ (es : List RawEntry) (coll : List Article) (seen : IdentSet) (tot : Nat)
      (x : Ident), x ∈ seen → x ∈ (collectEntries d n es coll seen tot).2.1 := by
  intro es
  induction es with
  | nil => intro coll seen tot x hx; simpa [collectEntries] using hx
  | cons e es ih =>
    intro coll seen tot x hx
    simp only [collectEntries]
    split
    · exact ih _ _ _ x hx
    · exact ih _ _ _ x (List.mem_cons_of_mem _ hx)

lemma collectEntries_new_not_seen (d : String → Option PyDateTime) (n : Int) :
    ∀ (es : List RawEntry) (coll : List Article) (seen : IdentSet) (tot : Nat)
      (a : Article), a ∈ (collectEntries d n es coll seen tot).1 →
      a ∈ coll ∨ a.link ∉ seen := by
  intro es
  induction es with
  | nil =>
    intro coll seen tot a ha
    exact Or.inl (by simpa [collectEntries] using ha)
  | cons e es ih =>
    intro coll seen tot a ha
    simp only [collectEntries] at ha
    split at ha
    · exact ih _ _ _ a ha
    · rcases ih _ _ _ a ha with hc | hs
      · rcases List.mem_append.mp hc with hc | hc
        · exact Or.inl hc
        · simp only [List.mem_singleton] at hc
          subst hc
          right
          assumption
      · exact Or.inr (fun hx => hs (List.mem_cons_of_mem _ hx))

lemma collectEntries_sub_seen (d : String → Option PyDateTime) (n : Int) :
    ∀ (es : List RawEntry) (coll : List Article) (seen : IdentSet) (tot : Nat),
      (∀ a ∈ coll, a.link ∈ seen) →
      ∀ a ∈ (collectEntries d n es coll seen tot).1,
        a.link ∈ (collectEntries d n es coll seen tot).2.1 := by
  intro es
  induction es with
  | nil =>
    intro coll seen tot hcoll a ha
    simp only [collectEntries] at ha ⊢
    exact hcoll a ha
  | cons e es ih =>
    intro coll seen tot hcoll a ha
    simp only [collectEntries] at ha ⊢
    split at ha <;> rename_i hcond
    · rw [if_pos hcond]
      exact ih _ _ _ hcoll a ha
    · rw [if_neg hcond]
      refine ih _ _ _ (fun b hb => ?_) a ha
      rcases List.mem_append.mp hb with hb | hb
      · exact List.mem_cons_of_mem _ (hcoll b hb)
      · simp only [List.mem_singleton] at hb
        subst hb
        exact List.mem_cons_self _ _

lemma collectEntries_nodup (d : String → Option PyDateTime) (n : Int) :
    ∀ (es : List RawEntry) (coll : List Article) (seen : IdentSet) (tot : Nat),
      (coll.map Article.link).Nodup → (∀ a ∈ coll, a.link ∈ seen) →
      ((collectEntries d n es coll seen tot).1.map Article.link).Nodup := by
  intro es
  induction es with
  | nil =>
    intro coll seen tot hnd hcoll
    simpa [collectEntries] using hnd
  | cons e es ih =>
    intro coll seen tot hnd hcoll
    simp only [collectEntries]
    split <;> rename_i hcond
    · exact ih _ _ _ hnd hcoll
    · refine ih _ _ _ ?_ ?_
      · rw [List.map_append]
        rw [List.nodup_append]
        refine ⟨hnd, List.nodup_singleton _, ?_⟩
        intro x hx
        simp only [List.map_singleton, List.mem_singleton]
        intro hx2
        subst hx2
        obtain ⟨b, hb, hbl⟩ := List.mem_map.mp hx
        exact hcond (hbl ▸ hcoll b hb)
      · intro b hb
        rcases List.mem_append.mp hb with hb | hb
        · exact List.mem_cons_of_mem _ (hcoll b hb)
        · simp only [List.mem_singleton] at hb
          subst hb
          exact List.mem_cons_self _ _

lemma newsArticles_src_cons (name : String) (coll : List Article)
    (rest : List (String × List Article)) :
    newsArticles ((if coll = [] then [] else [(name, coll)]) ++ rest) =
      coll ++ newsArticles rest := by
  by_cases h : coll = []
  · subst h
    simp [newsArticles]
  · rw [if_neg h]
    simp [newsArticles]

lemma collectSources_seen_mono (f : String → Except Unit (List RawEntry))
    (d : String → Option PyDateTime) (n : Int) :
    ∀ (srcs : List (String × String)) (seen : IdentSet) (x : Ident),
      x ∈ seen → x ∈ (collectSources f d n srcs seen).2.1 := by
  intro srcs
  induction srcs with
  | nil => intro seen x hx; simpa [collectSources] using hx
  | cons s rest ih =>
    intro seen x hx
    obtain ⟨name, url⟩ := s
    simp only [collectSources]
    exact ih _ x (collectEntries_seen_mono d n _ _ _ _ x hx)

lemma collectSources_new_not_seen (f : String → Except Unit (List RawEntry))
    (d : String → Option PyDateTime) (n : Int) :
    ∀ (srcs : List (String × String)) (seen : IdentSet) (a : Article),
      a ∈ newsArticles (collectSources f d n srcs seen).1 → a.link ∉ seen := by
  intro srcs
  induction srcs with
  | nil => intro seen a ha; simp [collectSources, newsArticles] at ha
  | cons s rest ih =>
    intro seen a ha
    obtain ⟨name, url⟩ := s
    simp only [collectSources] at ha
    rw [newsArticles_src_cons] at ha
    rcases List.mem_append.mp ha with ha | ha
    · rcases collectEntries_new_not_seen d n _ _ _ _ a ha with hc | hs
      · simp at hc
      · exact hs
    · intro hx
      exact ih _ a ha (collectEntries_seen_mono d n _ _ _ _ a.link hx)

lemma collectSources_sub_seen (f : String → Except Unit (List RawEntry))
    (d : String → Option PyDateTime) (n : Int) :
    ∀ (srcs : List (String × String)) (seen : IdentSet) (a : Article),
      a ∈ newsArticles (collectSources f d n srcs seen).1 →
      a.link ∈ (collectSources f d n srcs seen).2.1 := by
  intro srcs
  induction srcs with
  | nil => intro seen a ha; simp [collectSources, newsArticles] at ha
  | cons s rest ih =>
    intro seen a ha
    obtain ⟨name, url⟩ := s
    simp only [collectSources] at ha ⊢
    rw [newsArticles_src_cons] at ha
    rcases List.mem_append.mp ha with ha | ha
    · refine collectSources_seen_mono f d n _ _ a.link ?_
      exact collectEntries_sub_seen d n _ _ _ _ (by simp) a ha
    · exact ih _ a ha

lemma collectSources_nodup (f : String → Except Unit (List RawEntry))
    (d : String → Option PyDateTime) (n : Int) :
    ∀ (srcs : List (String × String)) (seen : IdentSet),
      ((newsArticles (collectSources f d n srcs seen).1).map
        Article.link).Nodup := by
  intro srcs
  induction srcs with
  | nil => intro seen; simp [collectSources, newsArticles]
  | cons s rest ih =>
    intro seen
    obtain ⟨name, url⟩ := s
    simp only [collectSources]
    rw [newsArticles_src_cons, List.map_append, List.nodup_append]
    refine ⟨collectEntries_nodup d n _ _ _ _ (by simp) (by simp), ih _, ?_⟩
    intro x hx hx2
    obtain ⟨a, ha, rfl⟩ := List.mem_map.mp hx
    obtain ⟨b, hb, hba⟩ := List.mem_map.mp hx2
    have h1 : a.link ∈ (collectEntries d n (fetch_rss f url) [] seen 0).2.1 :=
      collectEntries_sub_seen d n _ _ _ _ (by simp) a ha
    have h2 : b.link ∉ (collectEntries d n (fetch_rss f url) [] seen 0).2.1 :=
      collectSources_new_not_seen f d n _ _ b hb
    exact h2 (by rw [hba]; exact h1)

lemma send_news_collected (f : String → Except Unit (List RawEntry))
    (d : String → Option PyDateTime) (n : Int) (post : Int → String → Bool)
    (L : SeenSet) (c : Int) :
    (send_news_to_chat f d n post L c).collected_news =
      (collectSources f d n sources (seenOf L c)).1 := by
  unfold send_news_to_chat
  dsimp only
  split <;> rfl

lemma send_news_ledger (f : String → Except Unit (List RawEntry))
    (d : String → Option PyDateTime) (n : Int) (post : Int → String → Bool)
    (L : SeenSet) (c : Int) :
    (send_news_to_chat f d n post L c).ledger =
      setSeen L c (collectSources f d n sources (seenOf L c)).2.1 := by
  unfold send_news_to_chat
  dsimp only
  split <;> rfl

lemma send_news_saved (f : String → Except Unit (List RawEntry))
    (d : String → Option PyDateTime) (n : Int) (post : Int → String → Bool)
    (L : SeenSet) (c : Int) :
    (send_news_to_chat f d n post L c).saved =
      (if (collectSources f d n sources (seenOf L c)).1 = [] then none
       else some (send_news_to_chat f d n post L c).ledger) := by
  rw [send_news_ledger]
  unfold send_news_to_chat
  dsimp only
  split <;> rfl

lemma seenOf_setSeen (S : SeenSet) (r : Int) (v : IdentSet) :
    seenOf (setSeen S r v) r = v := by
  simp [seenOf, setSeen, List.lookup]

/-- Core no-redelivery fact: an identity in the chat's seen set at load time
is never among the run's delivered identities. -/
lemma no_redeliver_core (f : String → Except Unit (List RawEntry))
    (d : String → Option PyDateTime) (n : Int) (post : Int → String → Bool)
    (L : SeenSet) (c : Int) (i : Ident) (h : i ∈ seenOf L c) :
    i ∉ (send_news_to_chat f d n post L c).deliveredIds := by
  intro hi
  unfold RunResult.deliveredIds RunResult.delivered at hi
  rw [send_news_collected] at hi
  obtain ⟨a, ha, hal⟩ := List.mem_map.mp hi
  exact collectSources_new_not_seen f d n sources (seenOf L c) a ha (hal ▸ h)

/-- Core tracking fact: every delivered identity ends up in the chat's seen
set of the post-run ledger. -/
lemma delivered_tracked_core (f : String → Except Unit (List RawEntry))
    (d : String → Option PyDateTime) (n : Int) (post : Int → String → Bool)
    (L : SeenSet) (c : Int) (i : Ident)
    (h : i ∈ (send_news_to_chat f d n post L c).deliveredIds) :
    i ∈ seenOf (send_news_to_chat f d n post L c).ledger c := by
  unfold RunResult.deliveredIds RunResult.delivered at h
  rw [send_news_collected] at h
  obtain ⟨a, ha, hal⟩ := List.mem_map.mp h
  rw [send_news_ledger, seenOf_setSeen]
  exact hal ▸ collectSources_sub_seen f d n sources (seenOf L c) a ha

/-- A run whose delivery set is non-empty persisted its post-run ledger. -/
lemma delivered_saved_core (f : String → Except Unit (List RawEntry))
    (d : String → Option PyDateTime) (n : Int) (post : Int → String → Bool)
    (L : SeenSet) (c : Int) (i : Ident)
    (h : i ∈ (send_news_to_chat f d n post L c).deliveredIds) :
    (send_news_to_chat f d n post L c).saved =
      some (send_news_to_chat f d n post L c).ledger := by
  rw [send_news_saved]
  rw [if_neg ?_]
  intro hnil
  unfold RunResult.deliveredIds RunResult.delivered at h
  rw [send_news_collected, hnil] at h
  simp [newsArticles] at h

lemma fetch_rss_congr (f g : String → Except Unit (List RawEntry))
    (h : ∀ u, fetch_rss f u = fetch_rss g u) :
    ∀ (d : String → Option PyDateTime) (n : Int)
      (srcs : List (String × String)) (seen : IdentSet),
      collectSources f d n srcs seen = collectSources g d n srcs seen := by
  intro d n srcs
  induction srcs with
  | nil => intro seen; rfl
  | cons s rest ih =>
    intro seen
    obtain ⟨name, url⟩ := s
    simp only [collectSources]
    rw [h url, ih]

lemma send_news_congr (f g : String → Except Unit (List RawEntry))
    (h : ∀ u, fetch_rss f u = fetch_rss g u) (d : String → Option PyDateTime)
    (n : Int) (post : Int → String → Bool) (L : SeenSet) (c : Int) :
    send_news_to_chat f d n post L c = send_news_to_chat g d n post L c := by
  unfold send_news_to_chat
  dsimp only
  rw [fetch_rss_congr f g h d n sources (seenOf L c)]

lemma get_entry_datetime_tz (dparse : String → Option PyDateTime) (now : Int)
    (e : RawEntry) : (get_entry_datetime dparse now e).tzHours = VN_TZ := by
  obtain ⟨pp, up, pb, ud, lk, ti⟩ := e
  unfold get_entry_datetime
  rcases pp with _ | t
  · rcases up with _ | t
    · rcases pb with _ | s
      · rcases ud with _ | s
        · rfl
        · cases hd : dparse s <;> simp [hd, astimezone]
      · cases hd : dparse s <;> simp [hd, astimezone]
    · rfl
  · rfl

/-! ### Concrete fixtures used by witnesses and counterexamples -/

/-- A feed state where the first source yields one entry with link `a` and
the other sources are empty. -/
def fetchA : String → Except Unit (List RawEntry) := fun u =>
  if u = "http://gamek.vn/home.rss" then
    .ok [⟨none, none, none, none, some "a", some "T"⟩]
  else .ok []

/-- A feed state where the first source yields one link-less entry and the
other sources are empty. -/
def fetchNoLink : String → Except Unit (List RawEntry) := fun u =>
  if u = "http://gamek.vn/home.rss" then
    .ok [⟨none, none, none, none, none, some "T"⟩]
  else .ok []

/-- A `dateutil` parse that always fails. -/
def dparse0 : String → Option PyDateTime := fun _ => none

/-- A transport on which every Telegram post succeeds. -/
def post0 : Int → String → Bool := fun _ _ => true

/-- A transport on which every Telegram post fails. -/
def postFail : Int → String → Bool := fun _ _ => false

/-- A message exceeding the 4000-character budget. -/
def bigText : String := ⟨List.replicate 4001 'a'⟩

/-! ### The claims -/

/-- C1: for every recipient `c` and entry identity `i`, if `i` is recorded in
the recipient's seen set when the ledger is loaded at the start of a run, the
run's delivery set for `c` excludes `i`: the pipeline keeps an entry only
when its identity is absent from the recipient's seen set. -/
theorem C1_seen_identity_excluded (f : String → Except Unit (List RawEntry))
    (d : String → Option PyDateTime) (n : Int) (post : Int → String → Bool)
    (L : SeenSet) (c : Int) (i : Ident) (h : i ∈ seenOf L c) :
    i ∉ (send_news_to_chat f d n post L c).deliveredIds :=
  no_redeliver_core f d n post L c i h

/-- Witness for C1: with `a` already in chat 1's seen set and the feed
serving an entry with link `a`, the run delivers no entry with identity
`a`. -/
theorem C1_witness :
    (some "a" : Ident) ∉
      (send_news_to_chat fetchA dparse0 0 post0 [(1, [some "a"])] 1).deliveredIds :=
  C1_seen_identity_excluded fetchA dparse0 0 post0 [(1, [some "a"])] 1
    (some "a") (by decide)

/-- C2: the text handed to the external send capability is the input
truncated at the fixed 4000-character budget, as one single message: a longer
input is cut to exactly 4000 characters, a shorter one is delivered
unchanged. -/
theorem C2_truncated_to_budget (post : Int → String → Bool) (chat : Int)
    (text : String) :
    (send_telegram_message post chat text).1 =
      [⟨chat, pyTruncate 4000 text⟩] ∧
    (4000 < text.length → (pyTruncate 4000 text).length = 4000) ∧
    (text.length ≤ 4000 → pyTruncate 4000 text = text) := by
  obtain ⟨l⟩ := text
  refine ⟨rfl, ?_, ?_⟩
  · intro h
    show (List.take 4000 l).length = 4000
    rw [List.length_take]
    have hl : 4000 < l.length := h
    omega
  · intro h
    show (⟨List.take 4000 l⟩ : String) = ⟨l⟩
    rw [List.take_of_length_le h]

/-- Witness for C2: a 4001-character message is cut to exactly 4000
characters and a short message passes unchanged. -/
theorem C2_witness :
    ((send_telegram_message post0 5 bigText).1 =
      [⟨5, pyTruncate 4000 bigText⟩]) ∧
    (pyTruncate 4000 bigText).length = 4000 ∧
    pyTruncate 4000 "hi" = "hi" :=
  ⟨(C2_truncated_to_budget post0 5 bigText).1,
   (C2_truncated_to_budget post0 5 bigText).2.1
     (by
       have h1 : bigText.length = 4001 := by
         show (List.replicate 4001 'a').length = 4001
         rw [List.length_replicate]
       omega),
   (C2_truncated_to_budget post0 5 "hi").2.2 (by decide)⟩

/-- C6: fetch failure is isolated per source: `fetch_rss` collapses a failing
fetch to the empty entry list, and a run in which one source URL fails is
identical — same deliveries, ledger, persists — to the run in which that
source succeeds with no entries, for any behaviour of the other sources. -/
theorem C6_fetch_failure_isolated (f : String → Except Unit (List RawEntry))
    (d : String → Option PyDateTime) (n : Int) (post : Int → String → Bool)
    (L : SeenSet) (c : Int) (u : String) :
    fetch_rss (fun v => if v = u then Except.error () else f v) u = [] ∧
    send_news_to_chat (fun v => if v = u then Except.error () else f v)
        d n post L c =
      send_news_to_chat (fun v => if v = u then Except.ok [] else f v)
        d n post L c := by
  constructor
  · simp [fetch_rss]
  · apply send_news_congr
    intro v
    by_cases hv : v = u <;> simp [fetch_rss, hv]

/-- C7: with an empty recipient registry the run performs zero fetches and
zero sends, never writes the ledger (the durable file is unchanged), and
terminates normally having only warned. -/
theorem C7_empty_registry (f : String → Except Unit (List RawEntry))
    (d : String → Option PyDateTime) (n : Int) (post : Int → String → Bool)
    (file : SeenSet) :
    (main_run f d n post file []).fetches = [] ∧
    (main_run f d n post file []).posts = [] ∧
    (main_run f d n post file []).saveCount = 0 ∧
    (main_run f d n post file []).warned = true ∧
    (main_run f d n post file []).file = file :=
  ⟨rfl, rfl, rfl, rfl, rfl⟩

/-- C8: persist followed by load is the identity on the seen set: the keys
are written in decimal-string form and parsed back to the same recipient ids,
and the identity lists come back with the same members, so loading what was
saved yields the saved seen set again. -/
theorem C8_persist_load_roundtrip (S : SeenSet) :
    load_sent_links_data (save_sent_links_data S) = some S := by
  induction S with
  | nil => rfl
  | cons p rest ih =>
    obtain ⟨k, v⟩ := p
    simp only [save_sent_links_data, List.map_cons, load_sent_links_data,
      List.mapM_cons, intKey_strKey, Option.map_some]
    simp only [save_sent_links_data, load_sent_links_data] at ih
    rw [ih]
    rfl

/-- C10: within a single run each entry identity — the `none` placeholder of
link-less entries included — is collected for delivery to a recipient at most
once, even if it occurs several times in one feed or across sources, because
the identity joins the seen set at filter time, before any delivery. -/
theorem C10_delivery_set_nodup (f : String → Except Unit (List RawEntry))
    (d : String → Option PyDateTime) (n : Int) (post : Int → String → Bool)
    (L : SeenSet) (c : Int) :
    (send_news_to_chat f d n post L c).deliveredIds.Nodup := by
  unfold RunResult.deliveredIds RunResult.delivered
  rw [send_news_collected]
  exact collectSources_nodup f d n sources (seenOf L c)

/-- C3: the normalized publication timestamp follows the fixed fallback chain
— structured published time, else structured updated time, else parsed
free-text published string, else parsed free-text updated string, else the
current time — the chosen instant is displayed in the fixed UTC+7 timezone,
and a parse failure anywhere in the chain is non-fatal and yields the
current time. -/
theorem C3_timestamp_resolution (dparse : String → Option PyDateTime)
    (now : Int) (e : RawEntry) :
    ((get_entry_datetime dparse now e).tzHours = VN_TZ) ∧
    (∀ t, e.published_parsed = some t →
      get_entry_datetime dparse now e = ⟨t, VN_TZ⟩) ∧
    (e.published_parsed = none → ∀ t, e.updated_parsed = some t →
      get_entry_datetime dparse now e = ⟨t, VN_TZ⟩) ∧
    (e.published_parsed = none → e.updated_parsed = none →
      ∀ s, e.published = some s →
      (∀ dt, dparse s = some dt →
        get_entry_datetime dparse now e = ⟨dt.instant, VN_TZ⟩) ∧
      (dparse s = none →
        get_entry_datetime dparse now e = ⟨now, VN_TZ⟩)) ∧
    (e.published_parsed = none → e.updated_parsed = none →
      e.published = none → ∀ s, e.updated = some s →
      (∀ dt, dparse s = some dt →
        get_entry_datetime dparse now e = ⟨dt.instant, VN_TZ⟩) ∧
      (dparse s = none →
        get_entry_datetime dparse now e = ⟨now, VN_TZ⟩)) ∧
    (e.published_parsed = none → e.updated_parsed = none →
      e.published = none → e.updated = none →
      get_entry_datetime dparse now e = ⟨now, VN_TZ⟩) := by
  obtain ⟨pp, up, pb, ud, lk, ti⟩ := e
  refine ⟨get_entry_datetime_tz dparse now _, ?_, ?_, ?_, ?_, ?_⟩
  · intro t ht
    simp only at ht
    subst ht
    rfl
  · intro hpp t ht
    simp only at hpp ht
    subst hpp
    subst ht
    rfl
  · intro hpp hup s hs
    simp only at hpp hup hs
    subst hpp
    subst hup
    subst hs
    constructor
    · intro dt hdt
      simp [get_entry_datetime, hdt, astimezone]
    · intro hdt
      simp [get_entry_datetime, hdt, astimezone]
  · intro hpp hup hpb s hs
    simp only at hpp hup hpb hs
    subst hpp
    subst hup
    subst hpb
    subst hs
    constructor
    · intro dt hdt
      simp [get_entry_datetime, hdt, astimezone]
    · intro hdt
      simp [get_entry_datetime, hdt, astimezone]
  · intro hpp hup hpb hud
    simp only at hpp hup hpb hud
    subst hpp
    subst hup
    subst hpb
    subst hud
    rfl

/-- Witness for C3: an entry with only a free-text published string that
fails to parse resolves to the current time in UTC+7, and an entry with a
structured published time resolves to that instant in UTC+7. -/
theorem C3_witness :
    get_entry_datetime dparse0 42 ⟨none, none, some "bad", none, none, none⟩ =
      ⟨42, VN_TZ⟩ ∧
    get_entry_datetime dparse0 42 ⟨some 5, none, none, none, none, none⟩ =
      ⟨5, VN_TZ⟩ :=
  ⟨((C3_timestamp_resolution dparse0 42
      ⟨none, none, some "bad", none, none, none⟩).2.2.2.1 rfl rfl "bad"
      rfl).2 rfl,
   (C3_timestamp_resolution dparse0 42
      ⟨some 5, none, none, none, none, none⟩).2.1 5 rfl⟩

/-- C4 counterexample: the claim says a link-less entry is never
dedup-tracked, is delivered on every run, and leaves the seen set unchanged.
On the code, with the first source serving one link-less entry and an empty
initial ledger: the first run delivers it under the placeholder identity
`none`, the seen set gains `none` (it was absent before), and a second run
over the same feed content delivers nothing. -/
theorem C4_counterexample :
    (send_news_to_chat fetchNoLink dparse0 0 post0 [] 1).deliveredIds =
      [none] ∧
    none ∈ seenOf (send_news_to_chat fetchNoLink dparse0 0 post0 [] 1).ledger
      1 ∧
    none ∉ seenOf ([] : SeenSet) 1 ∧
    (send_news_to_chat fetchNoLink dparse0 0 post0
      (send_news_to_chat fetchNoLink dparse0 0 post0 [] 1).ledger
      1).deliveredIds = [] := by
  decide

/-- C4 amended: a link-less entry carries the placeholder identity `none`,
which is dedup-tracked like any other identity: the entry is kept only when
`none` is absent from the recipient's seen set, and once kept the placeholder
is recorded in the post-run ledger, which is persisted. -/
theorem C4_amended_placeholder_tracked
    (f : String → Except Unit (List RawEntry))
    (d : String → Option PyDateTime) (n : Int) (post : Int → String → Bool)
    (L : SeenSet) (c : Int) :
    (none ∈ seenOf L c →
      (none : Ident) ∉ (send_news_to_chat f d n post L c).deliveredIds) ∧
    ((none : Ident) ∈ (send_news_to_chat f d n post L c).deliveredIds →
      none ∈ seenOf (send_news_to_chat f d n post L c).ledger c ∧
      (send_news_to_chat f d n post L c).saved =
        some (send_news_to_chat f d n post L c).ledger) :=
  ⟨fun h => no_redeliver_core f d n post L c none h,
   fun h => ⟨delivered_tracked_core f d n post L c none h,
     delivered_saved_core f d n post L c none h⟩⟩

/-- Witness for C4's amended statement: with `none` already tracked no
link-less entry is delivered, and a delivered link-less entry puts `none`
into the post-run seen set. -/
theorem C4_witness :
    ((none : Ident) ∉
      (send_news_to_chat fetchNoLink dparse0 0 post0 [(1, [none])]
        1).deliveredIds) ∧
    none ∈ seenOf (send_news_to_chat fetchNoLink dparse0 0 post0 [] 1).ledger
      1 :=
  ⟨(C4_amended_placeholder_tracked fetchNoLink dparse0 0 post0 [(1, [none])]
      1).1 (by decide),
   ((C4_amended_placeholder_tracked fetchNoLink dparse0 0 post0 [] 1).2
      (by decide)).1⟩

/-- C5 counterexample: `save_sent_links` opens the durable file with mode
`"w"` (truncate in place) and then writes; the empty file is an observable
intermediate durable state, so with a non-empty old content and a different
new content the persist trace is not atomic: a reader can observe a state
that is neither the old nor the new set. -/
theorem C5_counterexample :
    ¬ atomicStates
        (save_sent_links_states "\x7b\"1\": [\"a\"]\x7d"
          "\x7b\"1\": [\"a\", \"b\"]\x7d")
        "\x7b\"1\": [\"a\"]\x7d" "\x7b\"1\": [\"a\", \"b\"]\x7d" := by
  decide

/-- C5 amended: persist is not write-to-temp-then-replace; it truncates the
durable file in place and rewrites it. The observable trace starts from the
old content, always passes through the empty file — destroying the
previously loadable state before the new one is complete — and ends with the
full new content only at the end. -/
theorem C5_amended_truncate_in_place (old new : String) :
    (save_sent_links_states old new).head? = some old ∧
    "" ∈ save_sent_links_states old new ∧
    (save_sent_links_states old new).getLast? = some new := by
  refine ⟨rfl, ?_, ?_⟩
  · refine List.mem_cons_of_mem _ (List.mem_map.mpr ⟨0, ?_, ?_⟩)
    · simp
    · rfl
  · unfold save_sent_links_states
    rw [List.range_succ, List.map_append, List.map_singleton,
      ← List.cons_append, List.getLast?_concat]
    obtain ⟨l⟩ := new
    show some (⟨List.take l.length l⟩ : String) = some ⟨l⟩
    rw [List.take_length]

/-- C9: every kept entry's identity is marked seen at filter time and the
marked ledger is persisted, regardless of the delivery outcome: the persisted
ledger and the saved flag do not depend on the transport, the delivered
identity is in the persisted seen set, and a run from the persisted ledger
over the same feed content never delivers that identity again. -/
theorem C9_marked_seen_despite_failure
    (f : String → Except Unit (List RawEntry))
    (d : String → Option PyDateTime) (n : Int)
    (post post2 : Int → String → Bool) (L : SeenSet) (c : Int) (i : Ident)
    (h : i ∈ (send_news_to_chat f d n post L c).deliveredIds) :
    (send_news_to_chat f d n post L c).saved =
      some (send_news_to_chat f d n post L c).ledger ∧
    i ∈ seenOf (send_news_to_chat f d n post L c).ledger c ∧
    (send_news_to_chat f d n post2 L c).saved =
      (send_news_to_chat f d n post L c).saved ∧
    (send_news_to_chat f d n post2 L c).ledger =
      (send_news_to_chat f d n post L c).ledger ∧
    i ∉ (send_news_to_chat f d n post2
      (send_news_to_chat f d n post L c).ledger c).deliveredIds := by
  refine ⟨delivered_saved_core f d n post L c i h,
    delivered_tracked_core f d n post L c i h, ?_, ?_, ?_⟩
  · rw [send_news_saved, send_news_saved, send_news_ledger, send_news_ledger]
  · rw [send_news_ledger, send_news_ledger]
  · exact no_redeliver_core f d n post2 _ c i
      (delivered_tracked_core f d n post L c i h)

/-- Witness for C9: the feed serves one entry with link `a` to chat 1 with an
empty ledger; under a transport on which every send fails, the run still
persists a ledger containing `a` and a second run from it delivers
nothing. -/
theorem C9_witness :
    (send_news_to_chat fetchA dparse0 0 postFail [] 1).saved =
      some (send_news_to_chat fetchA dparse0 0 postFail [] 1).ledger ∧
    some "a" ∈
      seenOf (send_news_to_chat fetchA dparse0 0 postFail [] 1).ledger 1 ∧
    (send_news_to_chat fetchA dparse0 0 post0 [] 1).saved =
      (send_news_to_chat fetchA dparse0 0 postFail [] 1).saved ∧
    (send_news_to_chat fetchA dparse0 0 post0 [] 1).ledger =
      (send_news_to_chat fetchA dparse0 0 postFail [] 1).ledger ∧
    (some "a" : Ident) ∉ (send_news_to_chat fetchA dparse0 0 post0
      (send_news_to_chat fetchA dparse0 0 postFail [] 1).ledger
      1).deliveredIds :=
  C9_marked_seen_despite_failure fetchA dparse0 0 postFail post0 [] 1
    (some "a") (by decide)

end GameNews
